import Mathlib

/-!
# Verification of the ssl-game-controller orchestration core

A shallow embedding of `internal/app/controller/refBox.go` (the real-time
state orchestration engine of the ssl-game-controller repository), together
with theorems settling the spec's claims about it.

Conventions of the embedding:

* `time.Duration` and `time.Time` values are modelled as mathematical
  integers (`Int`), nanosecond counts; the sentinel `time.Unix(0, 0)` is `0`.
* the Go map `map[Team]*TeamInfo` is modelled as an association list with
  first-match lookup; in-place mutation through the map becomes a pure update.
* the nil-pointer dereference in the Timeout branch of `updateTimes`
  (lookup of a missing key yields `nil`) is modelled by returning `none`.
* file writes and network publishes are modelled as an explicit effect trace.
-/

/-- Modelled from the spec: team identity. The `State` type of the repository
(`state.go`) is not under `src/`; the spec describes "a mapping from team
identity to TeamInfo" and the system serves two competing teams. -/
inductive Team
  | Yellow
  | Blue
deriving DecidableEq, Repr

/-- Modelled from the spec: per-team information — "an ordered sequence of
remaining yellow-card durations (order = issuance order) and a remaining
timeout duration". Field names follow the usage in `refBox.go`
(`YellowCardTimes`, `TimeoutTimeLeft`). -/
structure TeamInfo where
  YellowCardTimes : List Int
  TimeoutTimeLeft : Int
deriving DecidableEq, Repr

/-- Modelled from the spec: the run-mode owned by the external rules engine
("e.g. Halted/Stopped/Running/Timeout"); `refBox.go` consults
`GameStateRunning` and `GameStateTimeout`. -/
inductive GameState
  | Halted
  | Stopped
  | Running
  | Timeout
deriving DecidableEq, Repr

/-- Modelled from the spec: the MatchState root. The struct itself lives in
`state.go` (not under `src/`); the fields and their names are those read and
written by `refBox.go`: `GameState`, `GameStateFor`, `StageTimeElapsed`,
`StageTimeLeft`, `MatchDuration`, `TeamState`. -/
structure State where
  gameState : GameState
  GameStateFor : Option Team
  StageTimeElapsed : Int
  StageTimeLeft : Int
  MatchDuration : Int
  TeamState : List (Team × TeamInfo)
deriving DecidableEq, Repr

/-- First-match lookup in the association list modelling the Go map
`map[Team]*TeamInfo`; a missing key is the Go `nil` result. -/
def lookupTeam : Team → List (Team × TeamInfo) → Option TeamInfo
  | _, [] => none
  | t, (u, ti) :: rest => if u = t then some ti else lookupTeam t rest

/-- `reduceYellowCardTimes` from `refBox.go`: subtract `delta` from every
entry of `YellowCardTimes`. -/
def reduceYellowCardTimes (teamState : TeamInfo) (delta : Int) : TeamInfo :=
  { teamState with YellowCardTimes := teamState.YellowCardTimes.map (fun x => x - delta) }

/-- `removeElapsedYellowCards` from `refBox.go`: retain only the card times
that are strictly positive, in order. -/
def removeElapsedYellowCards (teamState : TeamInfo) : TeamInfo :=
  { teamState with YellowCardTimes := teamState.YellowCardTimes.filter (fun x => 0 < x) }

/-- The per-team body of the Running branch of `updateTimes`:
`reduceYellowCardTimes` then `removeElapsedYellowCards`. -/
def tickTeam (teamState : TeamInfo) (delta : Int) : TeamInfo :=
  removeElapsedYellowCards (reduceYellowCardTimes teamState delta)

/-- The Timeout branch of `updateTimes`:
`r.State.TeamState[team].TimeoutTimeLeft -= delta`, mutating the entry of
`team`. In the association-list model the first entry with that key is
updated. -/
def subtractTimeout : List (Team × TeamInfo) → Team → Int → List (Team × TeamInfo)
  | [], _, _ => []
  | (u, ti) :: rest, team, delta =>
      if u = team then
        (u, { ti with TimeoutTimeLeft := ti.TimeoutTimeLeft - delta }) :: rest
      else
        (u, ti) :: subtractTimeout rest team delta

/-- `updateTimes` from `refBox.go`. If the run-mode is Running, advance the
stage clocks and tick every team's cards; if the run-mode is Timeout and a
team is designated, subtract `delta` from that team's `TimeoutTimeLeft` via an
unguarded map lookup — when the key is absent the Go code dereferences `nil`
and panics, modelled here as `none`. -/
def updateTimes (s : State) (delta : Int) : Option State :=
  let s1 :=
    if s.gameState = GameState.Running then
      { s with
        StageTimeElapsed := s.StageTimeElapsed + delta
        StageTimeLeft := s.StageTimeLeft - delta
        TeamState := s.TeamState.map (fun p => (p.1, tickTeam p.2 delta)) }
    else s
  if s1.gameState = GameState.Timeout then
    match s1.GameStateFor with
    | some team =>
        match lookupTeam team s1.TeamState with
        | some _ => some { s1 with TeamState := subtractTimeout s1.TeamState team delta }
        | none => none
    | none => some s1
  else some s1

/-- The `GameController` struct of `refBox.go`, restricted to the fields the
claims concern: the single mutable state, the in-memory state history used by
undo, and the match start instant (`time.Unix(0, 0)`, the sentinel, is `0`).
The Go field `State` is a pointer; the model holds the value. -/
structure GameController where
  state : State
  StateHistory : List State
  MatchTimeStart : Int
deriving DecidableEq, Repr

/-- `UndoLastAction` from `refBox.go`: `lastIndex := len(StateHistory) - 2`;
if `lastIndex >= 0`, restore `*r.State` from `StateHistory[lastIndex]` and
truncate the history to `StateHistory[0:lastIndex]`; otherwise do nothing. -/
def UndoLastAction (g : GameController) : GameController :=
  if h : 2 ≤ g.StateHistory.length then
    { g with
      state := g.StateHistory.get ⟨g.StateHistory.length - 2, by omega⟩
      StateHistory := g.StateHistory.take (g.StateHistory.length - 2) }
  else g

/-- Modelled from the spec: the schema of a resulting command is a non-goal
("this spec does not define … the schema of individual commands"); an opaque
token suffices. The Go `event.Command` is a `*EventCommand`; the pointer is
modelled as `Option EventCommand`, `nil` being `none`. -/
structure EventCommand where
  id : Nat
deriving DecidableEq, Repr

/-- One observable side effect of the orchestrator, in program order:
an overwrite of the recovery snapshot file (`SaveLatestState`), an append to
the audit log file (`SaveStateHistory`), a push to the session-oriented sink
(`ApiServer.PublishState`), or a broadcast with the triggering command
(`Publisher.Publish`). -/
inductive Effect
  | SnapshotWrite (s : State)
  | AuditAppend (s : State)
  | ApiPublish (s : State)
  | Broadcast (s : State) (command : Option EventCommand)
deriving DecidableEq, Repr

/-- Whether an effect is a recovery-snapshot write. -/
def Effect.isSnapshotWrite : Effect → Bool
  | .SnapshotWrite _ => true
  | _ => false

/-- Whether an effect is an audit-log append. -/
def Effect.isAuditAppend : Effect → Bool
  | .AuditAppend _ => true
  | _ => false

/-- Whether an effect is a broadcast (a `Publisher.Publish` invocation). -/
def Effect.isBroadcast : Effect → Bool
  | .Broadcast _ _ => true
  | _ => false

/-- `Tick` from `refBox.go`: apply `updateTimes` with the elapsed delta, then,
if the match start instant is after `time.Unix(0, 0)`, recompute
`MatchDuration` as `now - MatchTimeStart`. A panic of `updateTimes`
propagates as `none`. The body contains no file operation and no access to
`StateHistory`, so a successful tick carries an empty effect trace. -/
def Tick (g : GameController) (now delta : Int) :
    Option (GameController × List Effect) :=
  match updateTimes g.state delta with
  | none => none
  | some s1 =>
      let s2 :=
        if 0 < g.MatchTimeStart then
          { s1 with MatchDuration := now - g.MatchTimeStart }
        else s1
      some ({ g with state := s2 }, [])

/-- `SaveLatestState` from `refBox.go`: marshal the current state, truncate
the snapshot file to zero and write the encoding at offset zero. The effect
records the state written; the in-memory controller is unchanged. -/
def SaveLatestState (g : GameController) : List Effect :=
  [Effect.SnapshotWrite g.state]

/-- `SaveStateHistory` from `refBox.go`: append the current state to the
in-memory `StateHistory`, then append its compact encoding and a newline to
the audit log file. -/
def SaveStateHistory (g : GameController) : GameController × List Effect :=
  ({ g with StateHistory := g.StateHistory ++ [g.state] },
   [Effect.AuditAppend g.state])

/-- `SaveState` from `refBox.go`: `SaveLatestState` then `SaveStateHistory`. -/
def SaveState (g : GameController) : GameController × List Effect :=
  let e1 := SaveLatestState g
  let (g1, e2) := SaveStateHistory g
  (g1, e1 ++ e2)

/-- `Publish` from `refBox.go`, called on instance `r` while the package-level
singleton is `glob`: if the command is non-nil, `RefBox.SaveState()`; then
`r.ApiServer.PublishState(*RefBox.State)` and
`RefBox.Publisher.Publish(RefBox.State, command)`. Every state access and the
persistence go through the singleton `glob`; `r` contributes only its
`ApiServer` sink, so the returned controller is the updated singleton. -/
def PublishInst (glob : GameController) (r : GameController)
    (command : Option EventCommand) : GameController × List Effect :=
  let (glob1, e1) :=
    if command.isSome then SaveState glob else (glob, [])
  (glob1, e1 ++ [Effect.ApiPublish glob1.state, Effect.Broadcast glob1.state command])

/-- `Publish` in the run-time situation where the receiver is the singleton
itself (the only instance the program constructs). -/
def Publish (g : GameController) (command : Option EventCommand) :
    GameController × List Effect :=
  PublishInst g g command

/-- The outcome of the external rules engine (`processEvent`, not part of the
orchestration core): either a rejection, or the mutated state together with
the event's resulting command (`event.Command`, possibly nil). -/
def RulesOutcome : Type := Except Unit (State × Option EventCommand)

/-- `OnNewEvent` from `refBox.go`, on the singleton, parameterized by the
rules-engine outcome: on error, log and return (no mutation, no effects); on
success the state has been mutated by the rules engine and `Publish` is
invoked once with the event's resulting command. -/
def OnNewEvent (g : GameController) (outcome : RulesOutcome) :
    GameController × List Effect :=
  match outcome with
  | .error _ => (g, [])
  | .ok (s1, command) => Publish { g with state := s1 } command

/-- Modelled from the spec: the snapshot encoding. `SaveLatestState` uses the
JSON library (`json.MarshalIndent` / `json.Unmarshal`, external to the
repository, acting on the `state.go` schema that is not under `src/`); the
spec requires only that decoding a written snapshot "yields a state equal
field-for-field" — an injective encoding with a matching decoder. The file
content is a token list; one token per JSON scalar. -/
def encTeam : Team → Int
  | .Yellow => 0
  | .Blue => 1

/-- Decoder for `encTeam`; unknown tags are a decode failure. -/
def decTeam (n : Int) : Option Team :=
  if n = 0 then some Team.Yellow
  else if n = 1 then some Team.Blue
  else none

/-- Encoding of the run-mode. -/
def encGameState : GameState → Int
  | .Halted => 0
  | .Stopped => 1
  | .Running => 2
  | .Timeout => 3

/-- Decoder for `encGameState`; unknown tags are a decode failure. -/
def decGameState (n : Int) : Option GameState :=
  if n = 0 then some GameState.Halted
  else if n = 1 then some GameState.Stopped
  else if n = 2 then some GameState.Running
  else if n = 3 then some GameState.Timeout
  else none

/-- Encoding of the optional designated team. -/
def encOptTeam : Option Team → List Int
  | none => [0]
  | some t => [1, encTeam t]

/-- Decoder for `encOptTeam`, returning the unconsumed tail. -/
def decOptTeam : List Int → Option (Option Team × List Int)
  | [] => none
  | tag :: rest =>
      if tag = 0 then some (none, rest)
      else if tag = 1 then
        match rest with
        | [] => none
        | t :: rest1 => (decTeam t).map (fun team => (some team, rest1))
      else none

/-- Take exactly `n` tokens off the front, failing when fewer remain. -/
def takeExact : Nat → List Int → Option (List Int × List Int)
  | 0, l => some ([], l)
  | _ + 1, [] => none
  | n + 1, x :: xs =>
      match takeExact n xs with
      | some (a, b) => some (x :: a, b)
      | none => none

/-- Encoding of one `TeamInfo`: timeout remaining, card count, card times. -/
def encTeamInfo (ti : TeamInfo) : List Int :=
  ti.TimeoutTimeLeft :: (ti.YellowCardTimes.length : Int) :: ti.YellowCardTimes

/-- Decoder for `encTeamInfo`, returning the unconsumed tail. -/
def decTeamInfo : List Int → Option (TeamInfo × List Int)
  | timeout :: count :: rest =>
      if count < 0 then none
      else
        match takeExact count.toNat rest with
        | some (cards, rest1) => some (⟨cards, timeout⟩, rest1)
        | none => none
  | _ => none

/-- Encoding of the team map, one entry after another. -/
def encTeams : List (Team × TeamInfo) → List Int
  | [] => []
  | (t, ti) :: rest => encTeam t :: (encTeamInfo ti ++ encTeams rest)

/-- Decoder for `encTeams`: parse the given number of entries, threading the
tail. -/
def decTeams : Nat → List Int → Option (List (Team × TeamInfo) × List Int)
  | 0, l => some ([], l)
  | _ + 1, [] => none
  | n + 1, t :: rest =>
      match decTeam t with
      | none => none
      | some team =>
          match decTeamInfo rest with
          | none => none
          | some (ti, rest1) =>
              match decTeams n rest1 with
              | none => none
              | some (ts, rest2) => some ((team, ti) :: ts, rest2)

/-- Encoding of a full `State`: run-mode, designated team, the three clocks,
the team-map entry count, then the entries. -/
def encodeState (s : State) : List Int :=
  encGameState s.gameState ::
    (encOptTeam s.GameStateFor ++
      (s.StageTimeElapsed :: s.StageTimeLeft :: s.MatchDuration ::
        (s.TeamState.length : Int) :: encTeams s.TeamState))

/-- Decoder for `encodeState`; trailing garbage is a decode failure. -/
def decodeState : List Int → Option State
  | [] => none
  | gs :: rest =>
      match decGameState gs with
      | none => none
      | some gameState =>
          match decOptTeam rest with
          | none => none
          | some (gsFor, rest1) =>
              match rest1 with
              | elapsed :: left :: dur :: count :: rest2 =>
                  if count < 0 then none
                  else
                    match decTeams count.toNat rest2 with
                    | some (ts, []) => some ⟨gameState, gsFor, elapsed, left, dur, ts⟩
                    | _ => none
              | _ => none

/-- The content the recovery snapshot file holds after `SaveLatestState`
succeeds: the file is truncated to zero and the encoding written at offset
zero, so the content is exactly the encoding of the saved state. -/
def snapshotFileContent (s : State) : List Int :=
  encodeState s

/-- The fixed read buffer size of `readLastState` in `refBox.go`
(`bufSize := 10000`). -/
def bufSize : Nat := 10000

/-- `readLastState` from `refBox.go`: read the snapshot file into a
`bufSize`-token buffer (`n` tokens read, `n = min (size) bufSize`); a read
that fills the buffer is fatal (`log.Fatal "Buffer size too small"`); a
non-empty smaller read is decoded, decode failure being fatal
(`log.Fatalf`); a zero-token read leaves the current state in place. Fatal
termination is `none`. -/
def readLastState (file : List Int) (current : State) : Option State :=
  let n := min file.length bufSize
  if n = bufSize then none
  else if 0 < n then
    match decodeState (file.take n) with
    | some s => some s
    | none => none
  else some current

/-- `readLastState` as called on an arbitrary instance `r` while the
package-level singleton is `glob`: the bytes come from `r.lastStateFile`, but
`json.Unmarshal(b[:n], RefBox.State)` decodes into the singleton's state, so
a successful recovery replaces `glob`'s state and leaves `r` untouched.
Fatal termination is `none`. -/
def readLastStateInst (glob r : GameController) (file : List Int) :
    Option (GameController × GameController) :=
  match readLastState file glob.state with
  | none => none
  | some s => some ({ glob with state := s }, r)

/-- A small concrete `State` used by witnesses: Stopped, no designated team,
one yellow card of 120s on Yellow. -/
def sampleState0 : State :=
  { gameState := GameState.Stopped
    GameStateFor := none
    StageTimeElapsed := 0
    StageTimeLeft := 600
    MatchDuration := 0
    TeamState := [(Team.Yellow, ⟨[120], 300⟩), (Team.Blue, ⟨[], 300⟩)] }

/-- A second concrete `State` used by witnesses: Running. -/
def sampleState1 : State :=
  { gameState := GameState.Running
    GameStateFor := none
    StageTimeElapsed := 5
    StageTimeLeft := 595
    MatchDuration := 5
    TeamState := [(Team.Yellow, ⟨[115], 300⟩), (Team.Blue, ⟨[], 300⟩)] }

/-- A third concrete `State` used by witnesses: Timeout for Blue. -/
def sampleState2 : State :=
  { gameState := GameState.Timeout
    GameStateFor := some Team.Blue
    StageTimeElapsed := 10
    StageTimeLeft := 590
    MatchDuration := 10
    TeamState := [(Team.Yellow, ⟨[110], 300⟩), (Team.Blue, ⟨[], 295⟩)] }

/-- C1: `UndoLastAction` on a history `[S0 … Sn]` is a no-op (state and
history both unchanged) when the history has fewer than 2 entries; otherwise
it sets the current state to `S(n-1)` and truncates the history to
`[S0 … S(n-2)]` (so from `[S0, S1, S2]` one undo yields state `S1` and
history `[S0]`), leaving the other controller fields unchanged. -/
theorem undoLastAction_spec (g : GameController) :
    (g.StateHistory.length < 2 → UndoLastAction g = g) ∧
    (∀ init a b, g.StateHistory = init ++ [a, b] →
      (UndoLastAction g).state = a ∧
      (UndoLastAction g).StateHistory = init ∧
      (UndoLastAction g).MatchTimeStart = g.MatchTimeStart) := by
  constructor
  · intro hlt
    unfold UndoLastAction
    rw [dif_neg (by omega)]
  · intro init a b hh
    have hlen : g.StateHistory.length = init.length + 2 := by
      rw [hh]; simp only [List.length_append, List.length_cons, List.length_nil]
    unfold UndoLastAction
    rw [dif_pos (by omega)]
    refine ⟨?_, ?_, rfl⟩
    · show g.StateHistory.get ⟨g.StateHistory.length - 2, _⟩ = a
      rw [List.get_eq_getElem]
      simp_rw [hh]
      rw [List.getElem_append_right
        (by simp only [List.length_append, List.length_cons, List.length_nil]; omega)]
      have hidx : (init ++ [a, b]).length - 2 - init.length = 0 := by
        simp only [List.length_append, List.length_cons, List.length_nil]; omega
      simp_rw [hidx]
      rfl
    · show g.StateHistory.take (g.StateHistory.length - 2) = init
      rw [hh]
      exact List.take_left'
        (by simp only [List.length_append, List.length_cons, List.length_nil]; omega)

/-- Witness for C1: on history `[S0, S1, S2]` undo yields state `S1` and
history `[S0]`; on a one-entry history undo is a no-op. -/
theorem undoLastAction_spec_witness :
    (UndoLastAction ⟨sampleState2, [sampleState0, sampleState1, sampleState2], 7⟩).state
        = sampleState1 ∧
    (UndoLastAction ⟨sampleState2, [sampleState0, sampleState1, sampleState2], 7⟩).StateHistory
        = [sampleState0] ∧
    UndoLastAction ⟨sampleState0, [sampleState0], 7⟩ = ⟨sampleState0, [sampleState0], 7⟩ := by
  refine ⟨?_, ?_, ?_⟩
  · exact ((undoLastAction_spec _).2 [sampleState0] sampleState1 sampleState2 rfl).1
  · exact ((undoLastAction_spec _).2 [sampleState0] sampleState1 sampleState2 rfl).2.1
  · exact (undoLastAction_spec _).1 (by decide)

/-- C3: while the run-mode is Running, a tick of delta `d > 0` advances
stage-elapsed by exactly `d` and reduces stage-remaining by exactly `d`, so
their sum is unchanged; stage-remaining may become negative (witnessed by a
state whose remaining time is `0`). -/
theorem updateTimes_running_clocks (s : State) (d : Int)
    (hrun : s.gameState = GameState.Running) (hd : 0 < d) :
    ∃ s1, updateTimes s d = some s1 ∧
      s1.StageTimeElapsed = s.StageTimeElapsed + d ∧
      s1.StageTimeLeft = s.StageTimeLeft - d ∧
      s1.StageTimeElapsed + s1.StageTimeLeft = s.StageTimeElapsed + s.StageTimeLeft ∧
      ∃ s0 s2, s0.gameState = GameState.Running ∧ updateTimes s0 1 = some s2 ∧
        s2.StageTimeLeft < 0 := by
  refine ⟨{ s with
      StageTimeElapsed := s.StageTimeElapsed + d
      StageTimeLeft := s.StageTimeLeft - d
      TeamState := s.TeamState.map (fun p => (p.1, tickTeam p.2 d)) },
    ?_, rfl, rfl, ?_,
    ⟨GameState.Running, none, 0, 0, 0, []⟩,
    ⟨GameState.Running, none, 1, -1, 0, []⟩, rfl, by decide, by decide⟩
  · simp [updateTimes, hrun]
  · show s.StageTimeElapsed + d + (s.StageTimeLeft - d) =
      s.StageTimeElapsed + s.StageTimeLeft
    omega

/-- Witness for C3: a Running state with 600s remaining, ticked by 1s. -/
theorem updateTimes_running_clocks_witness :
    ∃ s1, updateTimes sampleState1 1 = some s1 ∧
      s1.StageTimeElapsed = sampleState1.StageTimeElapsed + 1 ∧
      s1.StageTimeLeft = sampleState1.StageTimeLeft - 1 ∧
      s1.StageTimeElapsed + s1.StageTimeLeft =
        sampleState1.StageTimeElapsed + sampleState1.StageTimeLeft ∧
      ∃ s0 s2, s0.gameState = GameState.Running ∧ updateTimes s0 1 = some s2 ∧
        s2.StageTimeLeft < 0 :=
  updateTimes_running_clocks sampleState1 1 rfl (by decide)

/-- Lookup commutes with a per-value transform of the team map. -/
theorem lookupTeam_map (u : Team) (f : TeamInfo → TeamInfo) :
    ∀ l : List (Team × TeamInfo),
      lookupTeam u (l.map (fun p => (p.1, f p.2))) = (lookupTeam u l).map f
  | [] => rfl
  | (t, ti) :: rest => by
      by_cases h : t = u <;> simp [lookupTeam, h, lookupTeam_map u f rest]

/-- `subtractTimeout` updates the looked-up entry of the designated team. -/
theorem lookupTeam_subtractTimeout_self (t : Team) (d : Int) :
    ∀ (l : List (Team × TeamInfo)) (ti : TeamInfo), lookupTeam t l = some ti →
      lookupTeam t (subtractTimeout l t d) =
        some { ti with TimeoutTimeLeft := ti.TimeoutTimeLeft - d }
  | [], ti, h => by simp [lookupTeam] at h
  | (u, ti0) :: rest, ti, h => by
      by_cases hu : u = t
      · subst hu
        have hti : ti0 = ti := by simpa [lookupTeam] using h
        subst hti
        simp [subtractTimeout, lookupTeam]
      · simp only [lookupTeam, if_neg hu] at h
        simp [subtractTimeout, lookupTeam, hu,
          lookupTeam_subtractTimeout_self t d rest ti h]

/-- `subtractTimeout` leaves every other team's entry alone. -/
theorem lookupTeam_subtractTimeout_ne (u t : Team) (d : Int) (hne : u ≠ t) :
    ∀ l : List (Team × TeamInfo),
      lookupTeam u (subtractTimeout l t d) = lookupTeam u l
  | [] => rfl
  | (v, ti) :: rest => by
      have htu : ¬ t = u := fun h => hne h.symm
      by_cases hv : v = t
      · simp [subtractTimeout, lookupTeam, hv, htu]
      · by_cases hvu : v = u <;>
          simp [subtractTimeout, lookupTeam, hv, hvu, hne,
            lookupTeam_subtractTimeout_ne u t d hne rest]

/-- The card pass of the Running branch, one pass: a card of remaining `r`
survives a tick of `d` exactly when `r - d > 0`, with new value `r - d`, in
order. -/
theorem tickTeam_yellowCards (ti : TeamInfo) (d : Int) :
    (tickTeam ti d).YellowCardTimes =
      ti.YellowCardTimes.filterMap
        (fun r => if r - d ≤ 0 then none else some (r - d)) := by
  simp only [tickTeam, removeElapsedYellowCards, reduceYellowCardTimes]
  induction ti.YellowCardTimes with
  | nil => rfl
  | cons x xs ih =>
      simp only [List.map_cons, List.filter_cons, List.filterMap_cons]
      by_cases hx : 0 < x - d
      · have hx' : ¬ x - d ≤ 0 := by omega
        simp [hx, hx', ih]
      · have hx' : x - d ≤ 0 := by omega
        simp [hx, hx', ih]

/-- C4: while Running, every team's card list is ticked: a card of remaining
`r` is removed by a tick of delta `d` iff `r - d ≤ 0`, a surviving card's new
remaining value is exactly `r - d`, and the relative order of survivors is
preserved (the result is an order-preserving `filterMap` of the old list);
the tick leaves each team's timeout-remaining unchanged. -/
theorem yellowCards_tick_spec (s : State) (d : Int) (s1 : State)
    (hrun : s.gameState = GameState.Running) (h : updateTimes s d = some s1) :
    s1.TeamState = s.TeamState.map (fun p => (p.1, tickTeam p.2 d)) ∧
    ∀ ti : TeamInfo,
      (tickTeam ti d).YellowCardTimes =
        ti.YellowCardTimes.filterMap
          (fun r => if r - d ≤ 0 then none else some (r - d)) ∧
      (tickTeam ti d).TimeoutTimeLeft = ti.TimeoutTimeLeft := by
  constructor
  · simp only [updateTimes, hrun, reduceIte, if_true] at h
    simp only [reduceCtorEq, if_false, Option.some.injEq] at h
    rw [← h]
  · intro ti
    exact ⟨tickTeam_yellowCards ti d, rfl⟩

/-- Witness for C4: a Running state with one 115s card ticked by 115s — the
card reaches zero and is removed; the other team is mapped in place. -/
theorem yellowCards_tick_spec_witness :
    ((updateTimes sampleState1 115).getD sampleState0).TeamState =
      sampleState1.TeamState.map (fun p => (p.1, tickTeam p.2 115)) ∧
    (tickTeam ⟨[115], 300⟩ 115).YellowCardTimes = [] := by
  have h : updateTimes sampleState1 115 =
      some ⟨GameState.Running, none, 120, 480, 5,
        [(Team.Yellow, ⟨[], 300⟩), (Team.Blue, ⟨[], 300⟩)]⟩ := by decide
  have hs := yellowCards_tick_spec sampleState1 115 _ rfl h
  constructor
  · rw [h]
    exact hs.1
  · have := (hs.2 ⟨[115], 300⟩).1
    rw [this]
    decide

/-- C5: a tick while run-mode is Timeout with designated team `t` decrements
only `t`'s timeout-remaining by the delta — `t`'s other fields and every
other team's entry are unchanged, as are all non-team fields of the state —
and a tick leaves every team's timeout-remaining unchanged whenever the
run-mode is not Timeout or no team is designated. -/
theorem timeout_frame_spec (s : State) (d : Int) (s1 : State) :
    (∀ t, s.gameState = GameState.Timeout → s.GameStateFor = some t →
      updateTimes s d = some s1 →
      (∀ ti, lookupTeam t s.TeamState = some ti →
        lookupTeam t s1.TeamState =
          some { ti with TimeoutTimeLeft := ti.TimeoutTimeLeft - d }) ∧
      (∀ u, u ≠ t → lookupTeam u s1.TeamState = lookupTeam u s.TeamState) ∧
      s1.gameState = s.gameState ∧ s1.GameStateFor = s.GameStateFor ∧
      s1.StageTimeElapsed = s.StageTimeElapsed ∧
      s1.StageTimeLeft = s.StageTimeLeft ∧
      s1.MatchDuration = s.MatchDuration) ∧
    ((s.gameState ≠ GameState.Timeout ∨ s.GameStateFor = none) →
      updateTimes s d = some s1 →
      ∀ u, (lookupTeam u s1.TeamState).map TeamInfo.TimeoutTimeLeft =
        (lookupTeam u s.TeamState).map TeamInfo.TimeoutTimeLeft) := by
  constructor
  · intro t hgs hfor h
    simp only [updateTimes, hgs, reduceCtorEq, if_false, reduceIte, hfor] at h
    cases hlk : lookupTeam t s.TeamState with
    | none => rw [hlk] at h; cases h
    | some ti0 =>
        rw [hlk] at h
        simp only [Option.some.injEq] at h
        subst h
        refine ⟨?_, ?_, hgs.symm, hfor.symm, rfl, rfl, rfl⟩
        · intro ti hti
          have hti0 : ti0 = ti := Option.some.inj hti
          subst hti0
          exact lookupTeam_subtractTimeout_self t d s.TeamState ti0 hlk
        · intro u hu
          exact lookupTeam_subtractTimeout_ne u t d hu s.TeamState
  · intro hcase h u
    rcases hgs : s.gameState with _ | _ | _ | _
    · simp only [updateTimes, hgs, reduceCtorEq, if_false, Option.some.injEq] at h
      rw [← h]
    · simp only [updateTimes, hgs, reduceCtorEq, if_false, Option.some.injEq] at h
      rw [← h]
    · simp only [updateTimes, hgs, reduceIte, if_true, reduceCtorEq, if_false,
        Option.some.injEq] at h
      rw [← h]
      simp only [lookupTeam_map u (fun ti => tickTeam ti d) s.TeamState]
      cases lookupTeam u s.TeamState <;> rfl
    · rcases hcase with hne | hnone
      · exact absurd hgs hne
      · simp only [updateTimes, hgs, reduceCtorEq, if_false, reduceIte, hnone,
          Option.some.injEq] at h
        rw [← h]

/-- Witness for C5: Timeout for Blue — only Blue's timeout-remaining drops,
Yellow's entry is untouched; and a Stopped tick changes no timeout. -/
theorem timeout_frame_spec_witness :
    lookupTeam Team.Blue
        ((updateTimes sampleState2 5).getD sampleState0).TeamState =
      some ⟨[], 290⟩ ∧
    lookupTeam Team.Yellow
        ((updateTimes sampleState2 5).getD sampleState0).TeamState =
      lookupTeam Team.Yellow sampleState2.TeamState ∧
    (lookupTeam Team.Yellow
        ((updateTimes sampleState0 5).getD sampleState1).TeamState).map
      TeamInfo.TimeoutTimeLeft = some 300 := by
  have h2 : updateTimes sampleState2 5 =
      some ⟨GameState.Timeout, some Team.Blue, 10, 590, 10,
        [(Team.Yellow, ⟨[110], 300⟩), (Team.Blue, ⟨[], 290⟩)]⟩ := by decide
  have h0 : updateTimes sampleState0 5 = some sampleState0 := by decide
  refine ⟨?_, ?_, ?_⟩
  · have := ((timeout_frame_spec sampleState2 5 _).1 Team.Blue rfl rfl h2).1
      ⟨[], 295⟩ (by decide)
    rw [h2]
    simpa using this
  · have := ((timeout_frame_spec sampleState2 5 _).1 Team.Blue rfl rfl h2).2.1
      Team.Yellow (by decide)
    rw [h2]
    simpa using this
  · have hframe := (timeout_frame_spec sampleState0 5 sampleState0).2
      (Or.inl (by decide)) h0 Team.Yellow
    rw [h0]
    exact hframe.trans (by decide)

/-- C6: when the run-mode is neither Running nor Timeout, a tick changes at
most the total match duration (and only when the match-start instant is
set); and for every run-mode a successful tick leaves `StateHistory`
untouched, produces no persistence effect, and its outcome does not depend
on the history at all. -/
theorem tick_frame_spec (g : GameController) (now d : Int) :
    (g.state.gameState ≠ GameState.Running →
      g.state.gameState ≠ GameState.Timeout →
      Tick g now d =
        some ({ g with state := { g.state with MatchDuration :=
          if 0 < g.MatchTimeStart then now - g.MatchTimeStart
          else g.state.MatchDuration } }, [])) ∧
    (∀ g1 effs, Tick g now d = some (g1, effs) →
      g1.StateHistory = g.StateHistory ∧
      g1.MatchTimeStart = g.MatchTimeStart ∧ effs = []) ∧
    (∀ hist, Tick { g with StateHistory := hist } now d =
      (Tick g now d).map (fun p => ({ p.1 with StateHistory := hist }, p.2))) := by
  refine ⟨?_, ?_, ?_⟩
  · intro hne1 hne2
    have hupd : updateTimes g.state d = some g.state := by
      unfold updateTimes
      rw [if_neg hne1, if_neg hne2]
    unfold Tick
    rw [hupd]
    by_cases hmts : 0 < g.MatchTimeStart
    · simp [hmts]
    · simp [hmts]
  · intro g1 effs h
    unfold Tick at h
    cases hupd : updateTimes g.state d with
    | none => rw [hupd] at h; cases h
    | some s1 =>
        rw [hupd] at h
        simp only [Option.some.injEq, Prod.mk.injEq] at h
        obtain ⟨hg, he⟩ := h
        rw [← hg]
        exact ⟨rfl, rfl, he.symm⟩
  · intro hist
    unfold Tick
    cases hupd : updateTimes g.state d <;> simp

/-- Witness for C6: a Stopped state; the tick only recomputes the match
duration, keeps the history, and emits no effect. -/
theorem tick_frame_spec_witness :
    Tick ⟨sampleState0, [sampleState0], 3⟩ 10 1 =
      some (⟨{ sampleState0 with MatchDuration := 7 }, [sampleState0], 3⟩, []) ∧
    (Tick ⟨sampleState0, [sampleState0], 3⟩ 10 1).map
        (fun p => (p.1.StateHistory, p.2)) = some ([sampleState0], []) := by
  have h := (tick_frame_spec ⟨sampleState0, [sampleState0], 3⟩ 10 1).1
    (by decide) (by decide)
  constructor
  · rw [h]
    decide
  · rw [h]
    decide

/-- C2 counterexample: an accepted event whose resulting command is nil —
`Publish(nil)` skips `SaveState` — so `OnNewEvent` performs its one Publish
invocation with zero recovery-snapshot writes, zero audit-log appends and no
HistoryLog append, refuting "exactly one recovery-snapshot write and exactly
one audit-log append (plus one HistoryLog append) … even when the resulting
command is empty". -/
theorem onNewEvent_nil_command_counterexample :
    ((OnNewEvent ⟨sampleState0, [], 0⟩ (Except.ok (sampleState1, none))).2.filter
        Effect.isBroadcast).length = 1 ∧
    ¬ ((OnNewEvent ⟨sampleState0, [], 0⟩ (Except.ok (sampleState1, none))).2.filter
        Effect.isSnapshotWrite).length = 1 ∧
    ((OnNewEvent ⟨sampleState0, [], 0⟩ (Except.ok (sampleState1, none))).2.filter
        Effect.isAuditAppend).length = 0 ∧
    (OnNewEvent ⟨sampleState0, [], 0⟩ (Except.ok (sampleState1, none))).1.StateHistory
      = [] := by
  decide

/-- C2 (amended): a rejected event leaves the controller unchanged and
produces no effect (zero Publish invocations). An accepted event produces
exactly one Publish invocation carrying its resulting command; when that
command is non-nil, the Publish is preceded by exactly one recovery-snapshot
write and exactly one audit-log append, with exactly one HistoryLog append;
when the resulting command is nil, the Publish happens with no snapshot
write, no audit append and no HistoryLog append. -/
theorem onNewEvent_commit_spec (g : GameController) (outcome : RulesOutcome) :
    (∀ e, outcome = Except.error e → OnNewEvent g outcome = (g, [])) ∧
    (∀ s1 c, outcome = Except.ok (s1, some c) →
      OnNewEvent g outcome =
        (⟨s1, g.StateHistory ++ [s1], g.MatchTimeStart⟩,
         [Effect.SnapshotWrite s1, Effect.AuditAppend s1,
          Effect.ApiPublish s1, Effect.Broadcast s1 (some c)])) ∧
    (∀ s1, outcome = Except.ok (s1, none) →
      OnNewEvent g outcome =
        (⟨s1, g.StateHistory, g.MatchTimeStart⟩,
         [Effect.ApiPublish s1, Effect.Broadcast s1 none])) := by
  refine ⟨?_, ?_, ?_⟩
  · intro e h
    subst h
    rfl
  · intro s1 c h
    subst h
    rfl
  · intro s1 h
    subst h
    rfl

/-- Witness for C2: a rejected event is a complete no-op; an accepted event
with a non-nil command commits — snapshot write, audit append, history
append, then the publish carrying the command. -/
theorem onNewEvent_commit_spec_witness :
    OnNewEvent ⟨sampleState0, [sampleState0], 3⟩ (Except.error ()) =
      (⟨sampleState0, [sampleState0], 3⟩, []) ∧
    OnNewEvent ⟨sampleState0, [sampleState0], 3⟩
        (Except.ok (sampleState1, some ⟨1⟩)) =
      (⟨sampleState1, [sampleState0, sampleState1], 3⟩,
       [Effect.SnapshotWrite sampleState1, Effect.AuditAppend sampleState1,
        Effect.ApiPublish sampleState1,
        Effect.Broadcast sampleState1 (some ⟨1⟩)]) := by
  constructor
  · exact (onNewEvent_commit_spec _ _).1 () rfl
  · exact (onNewEvent_commit_spec _ _).2.1 sampleState1 ⟨1⟩ rfl

/-- C7: startup recovery is a three-way split on the bytes read into the
fixed 10000-byte buffer — zero bytes keeps the freshly constructed state,
a read filling the buffer is fatal, and a non-empty smaller read is decoded
(so the state is replaced on success and startup is refused on decode
failure). -/
theorem readLastState_spec (file : List Int) (current : State) :
    readLastState [] current = some current ∧
    (bufSize ≤ file.length → readLastState file current = none) ∧
    (0 < file.length → file.length < bufSize →
      readLastState file current = decodeState file) := by
  refine ⟨rfl, ?_, ?_⟩
  · intro h
    unfold readLastState
    have hmin : min file.length bufSize = bufSize := Nat.min_eq_right h
    simp [hmin]
  · intro h1 h2
    unfold readLastState
    have hmin : min file.length bufSize = file.length :=
      Nat.min_eq_left (Nat.le_of_lt h2)
    simp only [hmin, List.take_length]
    rw [if_neg (by omega), if_pos h1]
    cases decodeState file <;> rfl

/-- Witness for C7: a snapshot exactly filling the buffer is fatal, and a
non-empty undecodable snapshot is fatal. -/
theorem readLastState_spec_witness :
    readLastState (List.replicate bufSize 0) sampleState0 = none ∧
    readLastState [99] sampleState0 = none := by
  constructor
  · exact (readLastState_spec (List.replicate bufSize 0) sampleState0).2.1
      (by simp)
  · have h := (readLastState_spec [99] sampleState0).2.2 (by decide) (by decide)
    rw [h]
    decide

/-- Round-trip of the exact-length reader. -/
theorem takeExact_append (l rest : List Int) :
    takeExact l.length (l ++ rest) = some (l, rest) := by
  induction l with
  | nil => rfl
  | cons x xs ih => simp [takeExact, ih]

/-- Round-trip of the team tag. -/
theorem decTeam_encTeam (t : Team) : decTeam (encTeam t) = some t := by
  cases t <;> rfl

/-- Round-trip of the run-mode tag. -/
theorem decGameState_enc (gs : GameState) :
    decGameState (encGameState gs) = some gs := by
  cases gs <;> rfl

/-- Round-trip of the optional designated team, threading the tail. -/
theorem decOptTeam_enc (o : Option Team) (rest : List Int) :
    decOptTeam (encOptTeam o ++ rest) = some (o, rest) := by
  cases o with
  | none => rfl
  | some t => cases t <;> rfl

/-- Round-trip of one `TeamInfo`, threading the tail. -/
theorem decTeamInfo_enc (ti : TeamInfo) (rest : List Int) :
    decTeamInfo (encTeamInfo ti ++ rest) = some (ti, rest) := by
  obtain ⟨cards, timeout⟩ := ti
  show decTeamInfo (timeout :: (cards.length : Int) :: (cards ++ rest)) = _
  simp only [decTeamInfo]
  rw [if_neg (by omega)]
  rw [show ((cards.length : Int)).toNat = cards.length from by omega]
  rw [takeExact_append]

/-- Round-trip of the team-map entries, threading the tail. -/
theorem decTeams_enc (ts : List (Team × TeamInfo)) (rest : List Int) :
    decTeams ts.length (encTeams ts ++ rest) = some (ts, rest) := by
  induction ts generalizing rest with
  | nil => rfl
  | cons p ps ih =>
      obtain ⟨t, ti⟩ := p
      show decTeams (ps.length + 1)
        (encTeam t :: ((encTeamInfo ti ++ encTeams ps) ++ rest)) = _
      rw [List.append_assoc]
      simp only [decTeams, decTeam_encTeam, decTeamInfo_enc, ih]

/-- Round-trip of the full state encoding. -/
theorem decodeState_encodeState (s : State) :
    decodeState (encodeState s) = some s := by
  obtain ⟨gs, gsFor, e, left, dur, ts⟩ := s
  show decodeState (encGameState gs ::
    (encOptTeam gsFor ++
      (e :: left :: dur :: (ts.length : Int) :: encTeams ts))) = _
  simp only [decodeState, decGameState_enc, decOptTeam_enc]
  rw [if_neg (by omega)]
  rw [show ((ts.length : Int)).toNat = ts.length from by omega]
  have h := decTeams_enc ts []
  rw [List.append_nil] at h
  simp only [h]

/-- C8: persistence round-trip — `SaveLatestState` truncates the snapshot
file and writes the encoding at offset zero, so the file holds exactly the
encoding of the saved state; decoding it yields a state equal
field-for-field to the in-memory state at save time, and when the encoding
fits the recovery buffer the startup read reconstructs that very state. -/
theorem snapshot_roundtrip (s : State) (current : State) :
    decodeState (snapshotFileContent s) = some s ∧
    ((snapshotFileContent s).length < bufSize →
      readLastState (snapshotFileContent s) current = some s) := by
  constructor
  · exact decodeState_encodeState s
  · intro hlt
    have hpos : 0 < (snapshotFileContent s).length := by
      simp [snapshotFileContent, encodeState]
    unfold readLastState
    have hmin : min (snapshotFileContent s).length bufSize =
        (snapshotFileContent s).length := Nat.min_eq_left (Nat.le_of_lt hlt)
    simp only [hmin, List.take_length]
    rw [if_neg (by omega), if_pos hpos]
    rw [show decodeState (snapshotFileContent s) = some s from
      decodeState_encodeState s]

/-- Witness for C8: a concrete Timeout state survives the save/recover
round trip. -/
theorem snapshot_roundtrip_witness :
    decodeState (snapshotFileContent sampleState2) = some sampleState2 ∧
    readLastState (snapshotFileContent sampleState2) sampleState0 =
      some sampleState2 := by
  constructor
  · exact (snapshot_roundtrip sampleState2 sampleState0).1
  · exact (snapshot_roundtrip sampleState2 sampleState0).2 (by decide)

/-- C9: `Publish` and startup recovery act on the package-level singleton.
`PublishInst glob r command` is independent of the receiver `r`: it persists
and broadcasts `glob`'s state (`RefBox.SaveState`, `*RefBox.State`,
`RefBox.Publisher`), appending to `glob`'s history when the command is
non-nil; `readLastStateInst` decodes the recovered snapshot into `glob`'s
state and returns `r` unchanged; and a receiver whose own state differs from
the singleton's still broadcasts the singleton's. -/
theorem publish_uses_singleton (glob r : GameController)
    (command : Option EventCommand) (file : List Int) :
    PublishInst glob r command = PublishInst glob glob command ∧
    (PublishInst glob r command).2 =
      (if command.isSome then
        [Effect.SnapshotWrite glob.state, Effect.AuditAppend glob.state]
      else []) ++
        [Effect.ApiPublish glob.state, Effect.Broadcast glob.state command] ∧
    (PublishInst glob r command).1.state = glob.state ∧
    readLastStateInst glob r file =
      (readLastState file glob.state).map
        (fun s => ({ glob with state := s }, r)) ∧
    ∃ g0 r0 : GameController, g0.state ≠ r0.state ∧
      (PublishInst g0 r0 none).2 =
        [Effect.ApiPublish g0.state, Effect.Broadcast g0.state none] := by
  refine ⟨rfl, ?_, ?_, ?_,
    ⟨sampleState0, [], 0⟩, ⟨sampleState1, [], 0⟩, by decide, rfl⟩
  · cases command <;> rfl
  · cases command <;> rfl
  · unfold readLastStateInst
    cases readLastState file glob.state <;> rfl

/-- C10: `updateTimes` (the body of a tick) panics — the unguarded map lookup
dereferences `nil` — exactly when the run-mode is Timeout, a team is
designated, and that team has no entry in `TeamState`; equivalently the
operation is well-defined only under that membership precondition, and a
tick fails exactly when its `updateTimes` does. -/
theorem updateTimes_panic_iff (s : State) (d : Int) :
    (updateTimes s d = none ↔
      (s.gameState = GameState.Timeout ∧
        ∃ t, s.GameStateFor = some t ∧ lookupTeam t s.TeamState = none)) ∧
    (∀ g now, Tick g now d = none ↔ updateTimes g.state d = none) := by
  constructor
  · unfold updateTimes
    rcases hgs : s.gameState with _ | _ | _ | _ <;>
      simp only [hgs, reduceCtorEq, if_false, if_true, reduceIte] <;>
      try simp [hgs]
    · cases hfor : s.GameStateFor with
      | none => simp [hfor]
      | some t =>
          cases hlk : lookupTeam t s.TeamState with
          | none => simp [hfor, hlk]
          | some ti => simp [hfor, hlk]
  · intro g now
    unfold Tick
    cases h : updateTimes g.state d <;> simp [h]

/-- Witness for C10: a Timeout state designating a team that has no entry
in the team map makes `updateTimes` fail. -/
theorem updateTimes_panic_iff_witness :
    updateTimes ⟨GameState.Timeout, some Team.Blue, 0, 0, 0, []⟩ 1 = none :=
  ((updateTimes_panic_iff ⟨GameState.Timeout, some Team.Blue, 0, 0, 0, []⟩ 1).1).mpr
    ⟨rfl, Team.Blue, rfl, rfl⟩

/-- Witness for C9: with distinct singleton and receiver states, the
broadcast carries the singleton's state, not the receiver's. -/
theorem publish_uses_singleton_witness :
    (PublishInst ⟨sampleState0, [], 0⟩ ⟨sampleState1, [], 0⟩ none).2 =
      [Effect.ApiPublish sampleState0, Effect.Broadcast sampleState0 none] := by
  have h := (publish_uses_singleton ⟨sampleState0, [], 0⟩
    ⟨sampleState1, [], 0⟩ none []).2.1
  simpa using h
